import Mathlib

/-!
Shallow embedding of the Redpanda `jq` data transform
(`src/data-transforms/jq/src/main.rs`) and verification of its
specification claims.

The program is a per-record transform: it decodes a record's JSON value,
binds the record key as the `$KEY` variable, runs a compiled jaq filter
over the document, and emits one output record per filter output, keeping
the original key.  The jaq engine and the serde_json codec are external
crates, so they are embedded as parameters (a filter function, a `Codec`);
the transform driver `jaq_transform` and the startup function `main` are
translated from the source.  A concrete executable JSON codec
(`serdeCodec`, restricted to integer numerals) instantiates the codec
boundary in witnesses.
-/

/-- Raw byte sequences (record keys, record values, encoded payloads).
Each element is a byte value; byte range plays no role in the claims. -/
abbrev Bytes := List Nat

/-- The replacement character U+FFFD used by lossy UTF-8 decoding. -/
def repl : Char := Char.ofNat 0xFFFD

/-- A UTF-8 continuation byte (0x80..=0xBF). -/
def isCont (b : Nat) : Bool := 0x80 ≤ b && b ≤ 0xBF

/-- Valid first continuation byte for a 3-byte sequence with lead `b`
(Rust `run_utf8_validation`: E0 requires A0..BF, ED requires 80..9F). -/
def validCont3 (b b1 : Nat) : Bool :=
  if b == 0xE0 then 0xA0 ≤ b1 && b1 ≤ 0xBF
  else if b == 0xED then 0x80 ≤ b1 && b1 ≤ 0x9F
  else isCont b1

/-- Valid first continuation byte for a 4-byte sequence with lead `b`
(F0 requires 90..BF, F4 requires 80..8F). -/
def validCont4 (b b1 : Nat) : Bool :=
  if b == 0xF0 then 0x90 ≤ b1 && b1 ≤ 0xBF
  else if b == 0xF4 then 0x80 ≤ b1 && b1 ≤ 0x8F
  else isCont b1

/-- Embedding of Rust `String::from_utf8_lossy` (char list form): decode
UTF-8 with maximal-subpart replacement, one U+FFFD per invalid subpart,
mirroring the error lengths of `core::str::run_utf8_validation`. -/
def utf8LossyChars : List Nat → List Char
  | [] => []
  | b :: rest =>
    if b < 0x80 then Char.ofNat b :: utf8LossyChars rest
    else if b < 0xC2 then repl :: utf8LossyChars rest
    else if b < 0xE0 then
      match rest with
      | [] => [repl]
      | b1 :: rest1 =>
        if isCont b1 then
          Char.ofNat ((b % 32) * 64 + b1 % 64) :: utf8LossyChars rest1
        else repl :: utf8LossyChars (b1 :: rest1)
    else if b < 0xF0 then
      match rest with
      | [] => [repl]
      | b1 :: rest1 =>
        if validCont3 b b1 then
          match rest1 with
          | [] => [repl]
          | b2 :: rest2 =>
            if isCont b2 then
              Char.ofNat ((b % 16) * 4096 + (b1 % 64) * 64 + b2 % 64) ::
                utf8LossyChars rest2
            else repl :: utf8LossyChars (b2 :: rest2)
        else repl :: utf8LossyChars (b1 :: rest1)
    else if b < 0xF5 then
      match rest with
      | [] => [repl]
      | b1 :: rest1 =>
        if validCont4 b b1 then
          match rest1 with
          | [] => [repl]
          | b2 :: rest2 =>
            if isCont b2 then
              match rest2 with
              | [] => [repl]
              | b3 :: rest3 =>
                if isCont b3 then
                  Char.ofNat ((b % 8) * 262144 + (b1 % 64) * 4096 +
                      (b2 % 64) * 64 + b3 % 64) :: utf8LossyChars rest3
                else repl :: utf8LossyChars (b3 :: rest3)
            else repl :: utf8LossyChars (b2 :: rest2)
        else repl :: utf8LossyChars (b1 :: rest1)
    else repl :: utf8LossyChars rest

/-- `String::from_utf8_lossy(k).to_string()` as used at
`main.rs:57`. -/
def from_utf8_lossy (bs : Bytes) : String := String.mk (utf8LossyChars bs)

/-- The JSON document model shared by the codec boundary
(`serde_json::Value`) and the filter boundary (`jaq_interpret::Val`);
the source converts between the two losslessly (`Val::from`, `.into()`),
so a single document type embeds both.  Numbers are restricted to
integers (floating point is outside the embedding). -/
inductive Json where
  | null
  | bool (b : Bool)
  | num (n : Int)
  | str (s : String)
  | arr (elems : List Json)
  | obj (fields : List (String × Json))
deriving Repr

/-- A record at the dispatch boundary: optional key bytes and optional
value bytes (`BorrowedRecord` / `event.record` in the SDK). -/
structure Record where
  key : Option Bytes
  value : Option Bytes
deriving Repr, DecidableEq

/-- The per-record error taxonomy.  The source reports all of these as
`anyhow` errors; each constructor corresponds to one failure site in
`jaq_transform`:
`missingValue` ← `.context("missing json")` (line 50),
`decodeError` ← `serde_json::from_slice(..)?` (line 51),
`evalError` ← `anyhow!("error: \x7be\x7d")` (line 62),
`encodeError` ← `serde_json::to_vec(..)?` (line 64),
`emitError` ← `writer.write(..)?` (line 65). -/
inductive TransformError where
  | missingValue
  | decodeError (msg : String)
  | evalError (msg : String)
  | encodeError (msg : String)
  | emitError (msg : String)
deriving Repr

/-- The external Document Codec boundary (`serde_json::from_slice`,
`serde_json::to_vec`). -/
structure Codec where
  decode : Bytes → Except String Json
  encode : Json → Except String Bytes

/-- A compiled filter at the evaluation boundary: given the variable
bindings (the `Ctx` built from `vec![key]`) and the input document, it
yields the finite output sequence of documents or evaluation errors
(`filter.run((ctx, val))`). -/
abbrev FilterFn := List Json → Json → List (Except String Json)

/-- Deterministic model of the fallible `RecordWriter`: `accept written r`
is `none` when writing `r` succeeds given the records already written, and
`some msg` when the write fails. -/
structure RecordWriter where
  accept : List Record → Record → Option String

/-- The `$KEY` variable value (`main.rs:54-58`): the key bytes decoded
lossily as UTF-8 and wrapped as a string when a key is present, null
otherwise.  Total: it never fails, for any byte sequence. -/
def keyVal (key : Option Bytes) : Json :=
  match key with
  | some k => Json.str (from_utf8_lossy k)
  | none => Json.null

/-- The variable binding set passed to the filter (`Ctx::new(vec![key], ..)`,
`main.rs:59`): exactly one binding, the `$KEY` value. -/
def buildCtx (r : Record) : List Json := [keyVal r.key]

/-- The output loop of `jaq_transform` (`main.rs:61-66`): drive the filter
output sequence in order; on an error element fail with `evalError`; on a
value element encode it and write a record with the original key and the
encoded bytes, failing with `encodeError` or `emitError` as appropriate.
Returns the records written (beyond `written`) appended to `written`,
plus the terminal error if any. -/
def driveOutputs (codec : Codec) (w : RecordWriter) (key : Option Bytes) :
    List (Except String Json) → List Record → List Record × Option TransformError
  | [], written => (written, none)
  | Except.error e :: _, written => (written, some (TransformError.evalError e))
  | Except.ok v :: rest, written =>
    match codec.encode v with
    | Except.error e => (written, some (TransformError.encodeError e))
    | Except.ok bytes =>
      let out : Record := ⟨key, some bytes⟩
      match w.accept written out with
      | some e => (written, some (TransformError.emitError e))
      | none => driveOutputs codec w key rest (written ++ [out])

/-- Embedding of `jaq_transform` (`main.rs:48-68`).  The result is the
list of emitted output records together with `none` on success or the
terminal `TransformError` of the record. -/
def jaq_transform (codec : Codec) (filter : FilterFn) (w : RecordWriter)
    (r : Record) : List Record × Option TransformError :=
  match r.value with
  | none => ([], some TransformError.missingValue)
  | some payload =>
    match codec.decode payload with
    | Except.error e => ([], some (TransformError.decodeError e))
    | Except.ok json_payload =>
      let ctx := buildCtx r
      driveOutputs codec w r.key (filter ctx json_payload) []

/-- The name under which the record key is bound (`KEY_VAR`,
`main.rs:30`). -/
def KEY_VAR : String := "KEY"

/-- Embedding of the startup function `main` (`main.rs:32-45`); named
`mainStartup` because Lean reserves `main`.  The jaq parser and compiler
are external (`jaq_parse::parse`, `ParseCtx::compile`), passed as
parameters; `parse` returns the optional AST and the parse errors,
`compile` returns the compiled filter and the compilation errors.
On success the compiled filter is the one registered (once) with
`on_record_written`; every failure returns before registration.
(`f.unwrap()` on a `None` AST would panic; jaq guarantees `Some` whenever
the error list is empty, and a panic equally aborts startup before
registration, so it is embedded as a startup error.) -/
def mainStartup {Ast : Type} (envFilter : Option String)
    (parse : String → Option Ast × List String)
    (compile : Ast → FilterFn × List String) : Except String FilterFn :=
  match envFilter with
  | none => Except.error "environment variable FILTER is required"
  | some filter =>
    let pr := parse filter
    if pr.2 = [] then
      match pr.1 with
      | none => Except.error ("filter " ++ filter ++ " is invalid")
      | some ast =>
        let c := compile ast
        if c.2 = [] then Except.ok c.1
        else Except.error ("filter " ++ filter ++ " is invalid")
    else Except.error ("filter " ++ filter ++ " is invalid")

/-! ### A concrete Document Codec

`serde_json` is an external crate; the following executable codec
instantiates the `Codec` boundary for witnesses.  It implements compact
JSON serialization and strict JSON parsing in the style of
`serde_json::to_vec` / `serde_json::from_slice`, restricted to integer
numerals (floating-point numbers are outside the embedding, and no claim
needs them). -/

/-- UTF-8 encoding of a single scalar value. -/
def utf8EncodeChar (c : Char) : List Nat :=
  let n := c.toNat
  if n < 0x80 then [n]
  else if n < 0x800 then [0xC0 + n / 64, 0x80 + n % 64]
  else if n < 0x10000 then
    [0xE0 + n / 4096, 0x80 + (n / 64) % 64, 0x80 + n % 64]
  else
    [0xF0 + n / 262144, 0x80 + (n / 4096) % 64, 0x80 + (n / 64) % 64,
      0x80 + n % 64]

/-- UTF-8 encoding of a character sequence. -/
def utf8Encode (cs : List Char) : Bytes := (cs.map utf8EncodeChar).flatten

/-- Lowercase hex digit, as in serde_json's escape table. -/
def hexDigitChar (n : Nat) : Char :=
  if n < 10 then Char.ofNat (48 + n) else Char.ofNat (87 + n)

/-- JSON string escaping of one character (serde_json: quote, backslash,
the short control escapes, `\u00xx` for other control characters). -/
def escapeChar (c : Char) : List Char :=
  let n := c.toNat
  if n == 0x22 then [Char.ofNat 92, Char.ofNat 0x22]
  else if n == 92 then [Char.ofNat 92, Char.ofNat 92]
  else if n == 8 then [Char.ofNat 92, Char.ofNat 98]
  else if n == 9 then [Char.ofNat 92, Char.ofNat 116]
  else if n == 10 then [Char.ofNat 92, Char.ofNat 110]
  else if n == 12 then [Char.ofNat 92, Char.ofNat 102]
  else if n == 13 then [Char.ofNat 92, Char.ofNat 114]
  else if n < 0x20 then
    [Char.ofNat 92, Char.ofNat 117, Char.ofNat 48, Char.ofNat 48,
      hexDigitChar (n / 16), hexDigitChar (n % 16)]
  else [c]

/-- A JSON string literal: quoted, escaped. -/
def encStr (s : String) : List Char :=
  Char.ofNat 0x22 :: (s.data.map escapeChar).flatten ++ [Char.ofNat 0x22]

mutual

/-- Compact JSON serialization to characters (serde_json's
`CompactFormatter`). -/
def encodeChars : Json → List Char
  | Json.null => [Char.ofNat 110, Char.ofNat 117, Char.ofNat 108, Char.ofNat 108]
  | Json.bool true => [Char.ofNat 116, Char.ofNat 114, Char.ofNat 117, Char.ofNat 101]
  | Json.bool false =>
    [Char.ofNat 102, Char.ofNat 97, Char.ofNat 108, Char.ofNat 115, Char.ofNat 101]
  | Json.num n => (toString n).data
  | Json.str s => encStr s
  | Json.arr xs => Char.ofNat 91 :: encodeArr xs ++ [Char.ofNat 93]
  | Json.obj fs => Char.ofNat 123 :: encodeObj fs ++ [Char.ofNat 125]

/-- Comma-separated array elements. -/
def encodeArr : List Json → List Char
  | [] => []
  | [x] => encodeChars x
  | x :: xs => encodeChars x ++ Char.ofNat 44 :: encodeArr xs

/-- Comma-separated `key:value` object members. -/
def encodeObj : List (String × Json) → List Char
  | [] => []
  | [(k, v)] => encStr k ++ Char.ofNat 58 :: encodeChars v
  | (k, v) :: fs => encStr k ++ Char.ofNat 58 :: encodeChars v ++ Char.ofNat 44 :: encodeObj fs

end

/-- The codec's encode direction, as `serde_json::to_vec` produces it:
the UTF-8 bytes of the compact serialization. -/
def to_vec (v : Json) : Bytes := utf8Encode (encodeChars v)

/-- Skip JSON whitespace (space, tab, line feed, carriage return). -/
def skipWs : Bytes → Bytes
  | [] => []
  | b :: rest =>
    if b == 0x20 || b == 0x09 || b == 0x0A || b == 0x0D then skipWs rest
    else b :: rest

/-- ASCII decimal digit. -/
def isDigit (b : Nat) : Bool := 48 ≤ b && b ≤ 57

/-- Value of a hex digit byte, if it is one. -/
def hexVal (b : Nat) : Option Nat :=
  if 48 ≤ b && b ≤ 57 then some (b - 48)
  else if 97 ≤ b && b ≤ 102 then some (b - 87)
  else if 65 ≤ b && b ≤ 70 then some (b - 55)
  else none

/-- Consume a run of decimal digits, accumulating their value. -/
def parseDigits : Bytes → Nat → Nat × Bytes
  | [], acc => (acc, [])
  | b :: rest, acc =>
    if isDigit b then parseDigits rest (acc * 10 + (b - 48))
    else (acc, b :: rest)

/-- Finish an integer numeral: reject a fraction or exponent (the codec
is restricted to integer numerals), otherwise return the value. -/
def finishNum (neg : Bool) (n : Nat) (rest : Bytes) : Except String (Json × Bytes) :=
  match rest with
  | b :: _ =>
    if b == 46 || b == 101 || b == 69 then
      Except.error "unsupported: non-integer number"
    else Except.ok (Json.num (if neg then -(n : Int) else (n : Int)), rest)
  | [] => Except.ok (Json.num (if neg then -(n : Int) else (n : Int)), [])

/-- Parse an integer numeral: optional minus sign, then either a single
zero or a nonzero digit followed by digits (a digit after a leading zero
is invalid, as in serde_json). -/
def parseNumber (bs : Bytes) : Except String (Json × Bytes) :=
  let p := match bs with
    | 45 :: rest => (true, rest)
    | _ => (false, bs)
  match p.2 with
  | [] => Except.error "EOF while parsing a value"
  | b :: rest =>
    if b == 48 then
      match rest with
      | d :: _ =>
        if isDigit d then Except.error "invalid number"
        else finishNum p.1 0 rest
      | [] => finishNum p.1 0 []
    else if isDigit b then
      let q := parseDigits rest (b - 48)
      finishNum p.1 q.1 q.2
    else Except.error "invalid number"

/-- Strictly decode one UTF-8 scalar value from the byte stream
(serde_json validates string bytes strictly; invalid UTF-8 is an error). -/
def utf8DecodeStrict : Bytes → Except String (Char × Bytes)
  | [] => Except.error "EOF while parsing a string"
  | b :: rest =>
    if b < 0x80 then Except.ok (Char.ofNat b, rest)
    else if b < 0xC2 then Except.error "invalid unicode code point"
    else if b < 0xE0 then
      match rest with
      | b1 :: rest1 =>
        if isCont b1 then Except.ok (Char.ofNat ((b % 32) * 64 + b1 % 64), rest1)
        else Except.error "invalid unicode code point"
      | [] => Except.error "EOF while parsing a string"
    else if b < 0xF0 then
      match rest with
      | b1 :: b2 :: rest2 =>
        if validCont3 b b1 && isCont b2 then
          Except.ok (Char.ofNat ((b % 16) * 4096 + (b1 % 64) * 64 + b2 % 64), rest2)
        else Except.error "invalid unicode code point"
      | _ => Except.error "EOF while parsing a string"
    else if b < 0xF5 then
      match rest with
      | b1 :: b2 :: b3 :: rest3 =>
        if validCont4 b b1 && isCont b2 && isCont b3 then
          Except.ok (Char.ofNat ((b % 8) * 262144 + (b1 % 64) * 4096 +
            (b2 % 64) * 64 + b3 % 64), rest3)
        else Except.error "invalid unicode code point"
      | _ => Except.error "EOF while parsing a string"
    else Except.error "invalid unicode code point"

/-- Parse four hex digits of a `\u` escape. -/
def parseHex4 : Bytes → Except String (Nat × Bytes)
  | a :: b :: c :: d :: rest =>
    match hexVal a, hexVal b, hexVal c, hexVal d with
    | some x, some y, some z, some u => Except.ok (x * 4096 + y * 256 + z * 16 + u, rest)
    | _, _, _, _ => Except.error "invalid hex escape"
  | _ => Except.error "unexpected end of hex escape"

/-- Prepend a decoded character to a string-parse continuation. -/
def consChar (c : Char) : Except String (List Char × Bytes) → Except String (List Char × Bytes)
  | Except.ok (cs, rest) => Except.ok (c :: cs, rest)
  | Except.error e => Except.error e

/-- Parse the contents of a JSON string after its opening quote: plain
UTF-8 characters, the short escapes, and `\uXXXX` escapes including
surrogate pairs; control characters and lone surrogates are errors. -/
def parseStringChars (fuel : Nat) (bs : Bytes) : Except String (List Char × Bytes) :=
  match fuel with
  | 0 => Except.error "string too deep"
  | fuel + 1 =>
    match bs with
    | [] => Except.error "EOF while parsing a string"
    | b :: rest =>
      if b == 0x22 then Except.ok ([], rest)
      else if b == 0x5C then
        match rest with
        | [] => Except.error "EOF while parsing a string"
        | e :: rest1 =>
          if e == 0x22 then consChar (Char.ofNat 0x22) (parseStringChars fuel rest1)
          else if e == 0x5C then consChar (Char.ofNat 92) (parseStringChars fuel rest1)
          else if e == 47 then consChar (Char.ofNat 47) (parseStringChars fuel rest1)
          else if e == 98 then consChar (Char.ofNat 8) (parseStringChars fuel rest1)
          else if e == 102 then consChar (Char.ofNat 12) (parseStringChars fuel rest1)
          else if e == 110 then consChar (Char.ofNat 10) (parseStringChars fuel rest1)
          else if e == 114 then consChar (Char.ofNat 13) (parseStringChars fuel rest1)
          else if e == 116 then consChar (Char.ofNat 9) (parseStringChars fuel rest1)
          else if e == 117 then
            match parseHex4 rest1 with
            | Except.error msg => Except.error msg
            | Except.ok (c1, rest2) =>
              if 0xD800 ≤ c1 && c1 ≤ 0xDBFF then
                match rest2 with
                | 0x5C :: 0x75 :: rest3 =>
                  match parseHex4 rest3 with
                  | Except.error msg => Except.error msg
                  | Except.ok (c2, rest4) =>
                    if 0xDC00 ≤ c2 && c2 ≤ 0xDFFF then
                      consChar (Char.ofNat (0x10000 + (c1 - 0xD800) * 1024 + (c2 - 0xDC00)))
                        (parseStringChars fuel rest4)
                    else Except.error "lone leading surrogate in hex escape"
                | _ => Except.error "unexpected end of hex escape"
              else if 0xDC00 ≤ c1 && c1 ≤ 0xDFFF then
                Except.error "lone trailing surrogate in hex escape"
              else consChar (Char.ofNat c1) (parseStringChars fuel rest2)
          else Except.error "invalid escape"
      else if b < 0x20 then Except.error "control character in string"
      else
        match utf8DecodeStrict (b :: rest) with
        | Except.error msg => Except.error msg
        | Except.ok (c, rest1) => consChar c (parseStringChars fuel rest1)

mutual

/-- Parse one JSON value after skipping whitespace: literal, string,
numeral, array, or object. -/
def parseValue (fuel : Nat) (bs : Bytes) : Except String (Json × Bytes) :=
  match fuel with
  | 0 => Except.error "recursion limit exceeded"
  | fuel + 1 =>
    match skipWs bs with
    | [] => Except.error "EOF while parsing a value"
    | b :: rest =>
      if b == 110 then
        match rest with
        | 117 :: 108 :: 108 :: rest1 => Except.ok (Json.null, rest1)
        | _ => Except.error "expected ident null"
      else if b == 116 then
        match rest with
        | 114 :: 117 :: 101 :: rest1 => Except.ok (Json.bool true, rest1)
        | _ => Except.error "expected ident true"
      else if b == 102 then
        match rest with
        | 97 :: 108 :: 115 :: 101 :: rest1 => Except.ok (Json.bool false, rest1)
        | _ => Except.error "expected ident false"
      else if b == 0x22 then
        match parseStringChars (rest.length + 1) rest with
        | Except.error msg => Except.error msg
        | Except.ok (cs, rest1) => Except.ok (Json.str (String.mk cs), rest1)
      else if b == 91 then
        match skipWs rest with
        | 93 :: rest1 => Except.ok (Json.arr [], rest1)
        | rest1 => parseArrayItems fuel rest1 []
      else if b == 123 then
        match skipWs rest with
        | 125 :: rest1 => Except.ok (Json.obj [], rest1)
        | rest1 => parseObjItems fuel rest1 []
      else if b == 45 || isDigit b then parseNumber (b :: rest)
      else Except.error "expected value"

/-- Parse the remaining elements of a nonempty array. -/
def parseArrayItems (fuel : Nat) (bs : Bytes) (acc : List Json) :
    Except String (Json × Bytes) :=
  match fuel with
  | 0 => Except.error "recursion limit exceeded"
  | fuel + 1 =>
    match parseValue fuel bs with
    | Except.error msg => Except.error msg
    | Except.ok (v, rest) =>
      match skipWs rest with
      | 44 :: rest1 => parseArrayItems fuel rest1 (acc ++ [v])
      | 93 :: rest1 => Except.ok (Json.arr (acc ++ [v]), rest1)
      | _ => Except.error "expected comma or end of array"

/-- Parse the remaining members of a nonempty object. -/
def parseObjItems (fuel : Nat) (bs : Bytes) (acc : List (String × Json)) :
    Except String (Json × Bytes) :=
  match fuel with
  | 0 => Except.error "recursion limit exceeded"
  | fuel + 1 =>
    match skipWs bs with
    | 0x22 :: rest =>
      match parseStringChars (rest.length + 1) rest with
      | Except.error msg => Except.error msg
      | Except.ok (cs, rest1) =>
        match skipWs rest1 with
        | 58 :: rest2 =>
          match parseValue fuel rest2 with
          | Except.error msg => Except.error msg
          | Except.ok (v, rest3) =>
            match skipWs rest3 with
            | 44 :: rest4 => parseObjItems fuel rest4 (acc ++ [(String.mk cs, v)])
            | 125 :: rest4 => Except.ok (Json.obj (acc ++ [(String.mk cs, v)]), rest4)
            | _ => Except.error "expected comma or end of object"
        | _ => Except.error "expected colon"
    | _ => Except.error "key must be a string"

end

/-- The codec's decode direction, in the style of
`serde_json::from_slice`: parse one value, then require only whitespace
to remain. -/
def from_slice (bs : Bytes) : Except String Json :=
  match parseValue (bs.length + 1) bs with
  | Except.error msg => Except.error msg
  | Except.ok (v, rest) =>
    if (skipWs rest).isEmpty then Except.ok v
    else Except.error "trailing characters"

/-- The concrete Document Codec instance used by witnesses. -/
def serdeCodec : Codec :=
  { decode := from_slice, encode := fun v => Except.ok (to_vec v) }

/-- A writer whose writes always succeed. -/
def okWriter : RecordWriter := { accept := fun _ _ => none }

/-- A writer that accepts the first `k` writes and rejects the next with
message `e`. -/
def failAtWriter (k : Nat) (e : String) : RecordWriter :=
  { accept := fun written _ => if written.length == k then some e else none }

/-- Helper for stating emitted records: the output record built from a
document `v` under an encoding function `enc` and the original key. -/
def mkOut (key : Option Bytes) (enc : Json → Bytes) (v : Json) : Record :=
  ⟨key, some (enc v)⟩

/-- UTF-8 bytes of a string, for writing concrete byte payloads. -/
def strBytes (s : String) : Bytes := utf8Encode s.data

/-- A sequence of writes all accepted by `w`, starting from the already
written records `acc`: each record is offered in turn, the written list
growing by one on each success. -/
def writesAccepted (w : RecordWriter) : List Record → List Record → Bool
  | _, [] => true
  | acc, o :: os =>
    match w.accept acc o with
    | some _ => false
    | none => writesAccepted w (acc ++ [o]) os

/-! ### Helper lemmas -/

/-- Writes through `okWriter` always succeed. -/
@[simp] theorem okWriter_accept (ws : List Record) (r : Record) :
    okWriter.accept ws r = none := rfl

/-- Driving a prefix of successfully encoded values through an
always-accepting writer appends exactly their output records, in order. -/
theorem driveOutputs_okWriter_append (codec : Codec) (key : Option Bytes)
    (enc : Json → Bytes) (henc : ∀ v, codec.encode v = Except.ok (enc v)) :
    ∀ (vs : List Json) (rest : List (Except String Json)) (acc : List Record),
    driveOutputs codec okWriter key (vs.map Except.ok ++ rest) acc =
      driveOutputs codec okWriter key rest (acc ++ vs.map (mkOut key enc))
  | [], rest, acc => by simp [driveOutputs]
  | v :: vs, rest, acc => by
    have h1 : driveOutputs codec okWriter key ((v :: vs).map Except.ok ++ rest) acc =
        driveOutputs codec okWriter key (vs.map Except.ok ++ rest)
          (acc ++ [⟨key, some (enc v)⟩]) := by
      simp [driveOutputs, henc v]
    rw [h1]
    rw [driveOutputs_okWriter_append codec key enc henc vs rest]
    simp [mkOut]

/-- Every record the output loop adds to the written list has a present
value. -/
theorem driveOutputs_value_isSome (codec : Codec) (w : RecordWriter)
    (key : Option Bytes) :
    ∀ (outs : List (Except String Json)) (acc : List Record),
    (∀ o ∈ acc, o.value.isSome) →
    ∀ o ∈ (driveOutputs codec w key outs acc).1, o.value.isSome
  | [], acc, hacc => by simpa [driveOutputs] using hacc
  | Except.error e :: rest, acc, hacc => by simpa [driveOutputs] using hacc
  | Except.ok v :: rest, acc, hacc => by
    simp only [driveOutputs]
    cases hv : codec.encode v with
    | error e => simpa using hacc
    | ok bytes =>
      simp only []
      cases hw : w.accept acc ⟨key, some bytes⟩ with
      | some e => simpa using hacc
      | none =>
        simp only []
        exact driveOutputs_value_isSome codec w key rest (acc ++ [⟨key, some bytes⟩])
          (by
            intro o ho
            rcases List.mem_append.mp ho with h | h
            · exact hacc o h
            · simp at h
              subst h
              rfl)

/-! ### Claims -/

/-- Claim C1: for every input record whose value is absent, `transform`
fails with the `MissingValue` error and emits zero output records. -/
theorem transform_missingValue (codec : Codec) (filter : FilterFn)
    (w : RecordWriter) (r : Record) (h : r.value = none) :
    jaq_transform codec filter w r = ([], some TransformError.missingValue) := by
  simp [jaq_transform, h]

/-- Witness for C1 at a concrete valueless record. -/
theorem transform_missingValue_witness :
    jaq_transform serdeCodec (fun _ v => [Except.ok v]) okWriter ⟨some [107], none⟩ =
      ([], some TransformError.missingValue) :=
  transform_missingValue serdeCodec (fun _ v => [Except.ok v]) okWriter
    ⟨some [107], none⟩ rfl

/-- Claim C6: for every record whose value bytes fail to decode, `transform`
fails with `DecodeError` wrapping the codec's diagnostic and emits zero
output records.  The decode is invoked exactly once on the error path
(the definition of `jaq_transform` contains a single `decode` call and
returns immediately on its error). -/
theorem transform_decodeError (codec : Codec) (filter : FilterFn)
    (w : RecordWriter) (r : Record) (payload : Bytes) (e : String)
    (hv : r.value = some payload) (hd : codec.decode payload = Except.error e) :
    jaq_transform codec filter w r = ([], some (TransformError.decodeError e)) := by
  simp [jaq_transform, hv, hd]

/-- Witness for C6: the malformed payload `"nul"` fails to decode. -/
theorem transform_decodeError_witness :
    jaq_transform serdeCodec (fun _ v => [Except.ok v]) okWriter
      ⟨some [107], some (strBytes "nul")⟩ =
      ([], some (TransformError.decodeError "expected ident null")) :=
  transform_decodeError serdeCodec (fun _ v => [Except.ok v]) okWriter
    ⟨some [107], some (strBytes "nul")⟩ (strBytes "nul") "expected ident null" rfl rfl

/-- Claim C8: a decodable record with a filter whose output sequence is
empty yields zero output records and success. -/
theorem transform_empty_sequence (codec : Codec) (filter : FilterFn)
    (w : RecordWriter) (r : Record) (payload : Bytes) (doc : Json)
    (hv : r.value = some payload) (hd : codec.decode payload = Except.ok doc)
    (hf : filter (buildCtx r) doc = []) :
    jaq_transform codec filter w r = ([], none) := by
  simp [jaq_transform, hv, hd, hf, driveOutputs]

/-- Witness for C8: the empty filter on a decodable record. -/
theorem transform_empty_sequence_witness :
    jaq_transform serdeCodec (fun _ _ => []) okWriter
      ⟨some [107], some (strBytes "1")⟩ = ([], none) :=
  transform_empty_sequence serdeCodec (fun _ _ => []) okWriter
    ⟨some [107], some (strBytes "1")⟩ (strBytes "1") (Json.num 1) rfl rfl rfl

/-- Claim C3: the variable binding set passed to filter evaluation is the
single `$KEY` binding: the key bytes decoded as UTF-8 with lossy
replacement-character substitution, wrapped as a string, when the key is
present, and null when absent; and `jaq_transform` evaluates the filter
at exactly this binding set.  The construction (`keyVal`, `buildCtx`,
`from_utf8_lossy`) is a total function, so it never fails for any key
byte sequence. -/
theorem transform_key_binding (codec : Codec) (filter : FilterFn)
    (w : RecordWriter) (r : Record) :
    (∀ k, r.key = some k → buildCtx r = [Json.str (from_utf8_lossy k)]) ∧
    (r.key = none → buildCtx r = [Json.null]) ∧
    (∀ payload doc, r.value = some payload → codec.decode payload = Except.ok doc →
      jaq_transform codec filter w r =
        driveOutputs codec w r.key (filter (buildCtx r) doc) []) := by
  refine ⟨?_, ?_, ?_⟩
  · intro k hk
    simp [buildCtx, keyVal, hk]
  · intro hk
    simp [buildCtx, keyVal, hk]
  · intro payload doc hv hd
    simp [jaq_transform, hv, hd]

/-- Witness for C3: a present key of invalid UTF-8 binds to a replacement
string; an absent key binds to null. -/
theorem transform_key_binding_witness :
    buildCtx ⟨some [104, 0xFF], some (strBytes "1")⟩ =
      [Json.str (from_utf8_lossy [104, 0xFF])] ∧
    buildCtx ⟨none, some (strBytes "1")⟩ = [Json.null] ∧
    from_utf8_lossy [104, 0xFF] = String.mk [Char.ofNat 104, repl] :=
  ⟨(transform_key_binding serdeCodec (fun _ v => [Except.ok v]) okWriter
      ⟨some [104, 0xFF], some (strBytes "1")⟩).1 [104, 0xFF] rfl,
   (transform_key_binding serdeCodec (fun _ v => [Except.ok v]) okWriter
      ⟨none, some (strBytes "1")⟩).2.1 rfl,
   rfl⟩

/-- Claim C2: when the filter's output sequence is k values followed by an
evaluation error, exactly those k output records are emitted, in order,
and the record then fails with `EvaluationError`; the emitted outputs
stand and nothing after the error element is consumed. -/
theorem transform_evalError_partial (codec : Codec) (filter : FilterFn)
    (r : Record) (enc : Json → Bytes)
    (henc : ∀ v, codec.encode v = Except.ok (enc v))
    (payload : Bytes) (doc : Json) (vs : List Json) (e : String)
    (rest : List (Except String Json))
    (hv : r.value = some payload) (hd : codec.decode payload = Except.ok doc)
    (hf : filter (buildCtx r) doc = vs.map Except.ok ++ Except.error e :: rest) :
    jaq_transform codec filter okWriter r =
      (vs.map (mkOut r.key enc), some (TransformError.evalError e)) := by
  simp only [jaq_transform, hv, hd, hf]
  rw [driveOutputs_okWriter_append codec r.key enc henc vs (Except.error e :: rest)]
  simp [driveOutputs]

/-- Witness for C2: two values then an error yield exactly two outputs and
an `EvaluationError`. -/
theorem transform_evalError_partial_witness :
    jaq_transform serdeCodec
      (fun _ _ => [Except.ok (Json.num 1), Except.ok (Json.num 2), Except.error "boom"])
      okWriter ⟨some [107], some (strBytes "[0]")⟩ =
      ([⟨some [107], some (strBytes "1")⟩, ⟨some [107], some (strBytes "2")⟩],
        some (TransformError.evalError "boom")) :=
  transform_evalError_partial serdeCodec
    (fun _ _ => [Except.ok (Json.num 1), Except.ok (Json.num 2), Except.error "boom"])
    ⟨some [107], some (strBytes "[0]")⟩ to_vec (fun _ => rfl)
    (strBytes "[0]") (Json.arr [Json.num 0]) [Json.num 1, Json.num 2] "boom" []
    rfl rfl rfl

/-- Claim C4: a decodable record with a filter producing N values and no
error yields exactly N output records, one per sequence element in order,
each carrying the original record's key byte-for-byte. -/
theorem transform_fanout_ordered (codec : Codec) (filter : FilterFn)
    (r : Record) (enc : Json → Bytes)
    (henc : ∀ v, codec.encode v = Except.ok (enc v))
    (payload : Bytes) (doc : Json) (vs : List Json)
    (hv : r.value = some payload) (hd : codec.decode payload = Except.ok doc)
    (hf : filter (buildCtx r) doc = vs.map Except.ok) :
    jaq_transform codec filter okWriter r = (vs.map (mkOut r.key enc), none) ∧
    ∀ o ∈ (jaq_transform codec filter okWriter r).1, o.key = r.key := by
  have hmain : jaq_transform codec filter okWriter r = (vs.map (mkOut r.key enc), none) := by
    simp only [jaq_transform, hv, hd, hf]
    have h2 := driveOutputs_okWriter_append codec r.key enc henc vs [] []
    simp only [List.append_nil, List.nil_append] at h2
    rw [h2]
    simp [driveOutputs]
  refine ⟨hmain, ?_⟩
  rw [hmain]
  intro o ho
  simp only [List.mem_map] at ho
  obtain ⟨v, _, rfl⟩ := ho
  rfl

/-- Witness for C4: iterating over `[1,2,3]` emits exactly the three
outputs `1`, `2`, `3` in order, all under the original key. -/
theorem transform_fanout_ordered_witness :
    jaq_transform serdeCodec
      (fun _ v => match v with
        | Json.arr xs => xs.map Except.ok
        | _ => ([] : List (Except String Json)))
      okWriter ⟨some [107], some (strBytes "[1,2,3]")⟩ =
      ([⟨some [107], some (strBytes "1")⟩, ⟨some [107], some (strBytes "2")⟩,
        ⟨some [107], some (strBytes "3")⟩], none) :=
  (transform_fanout_ordered serdeCodec
    (fun _ v => match v with
      | Json.arr xs => xs.map Except.ok
      | _ => ([] : List (Except String Json)))
    ⟨some [107], some (strBytes "[1,2,3]")⟩ to_vec (fun _ => rfl)
    (strBytes "[1,2,3]") (Json.arr [Json.num 1, Json.num 2, Json.num 3])
    [Json.num 1, Json.num 2, Json.num 3] rfl rfl rfl).1

/-- Claim C7: on a decodable record, the identity filter emits exactly one
output record whose key is the input key byte-for-byte and whose value
decodes back to the input document, provided the codec round-trips that
document (decode of encode is the identity on it). -/
theorem transform_identity_roundtrip (codec : Codec) (r : Record)
    (payload bs2 : Bytes) (doc : Json)
    (hv : r.value = some payload) (hd : codec.decode payload = Except.ok doc)
    (he : codec.encode doc = Except.ok bs2)
    (hrt : codec.decode bs2 = Except.ok doc) :
    jaq_transform codec (fun _ v => [Except.ok v]) okWriter r =
      ([⟨r.key, some bs2⟩], none) ∧ codec.decode bs2 = Except.ok doc := by
  refine ⟨?_, hrt⟩
  simp [jaq_transform, hv, hd, driveOutputs, he]

/-- Witness for C7: the identity filter on payload `"[1, 2]"` emits one
record with the original key whose value re-decodes to the same array. -/
theorem transform_identity_roundtrip_witness :
    jaq_transform serdeCodec (fun _ v => [Except.ok v]) okWriter
      ⟨some [107], some (strBytes "[1, 2]")⟩ =
      ([⟨some [107], some (strBytes "[1,2]")⟩], none) ∧
    serdeCodec.decode (strBytes "[1,2]") =
      Except.ok (Json.arr [Json.num 1, Json.num 2]) :=
  transform_identity_roundtrip serdeCodec ⟨some [107], some (strBytes "[1, 2]")⟩
    (strBytes "[1, 2]") (strBytes "[1,2]") (Json.arr [Json.num 1, Json.num 2])
    rfl rfl rfl rfl

/-- Driving the outputs when the writes of `us` are accepted and the write
of `v` then fails: the loop stops at the failing write with `emitError`. -/
theorem driveOutputs_emitFail (codec : Codec) (w : RecordWriter)
    (key : Option Bytes) (enc : Json → Bytes)
    (henc : ∀ v, codec.encode v = Except.ok (enc v))
    (v : Json) (ws : List Json) (rest : List (Except String Json)) (e : String) :
    ∀ (us : List Json) (acc : List Record),
    writesAccepted w acc (us.map (mkOut key enc)) = true →
    w.accept (acc ++ us.map (mkOut key enc)) (mkOut key enc v) = some e →
    driveOutputs codec w key ((us ++ v :: ws).map Except.ok ++ rest) acc =
      (acc ++ us.map (mkOut key enc), some (TransformError.emitError e))
  | [], acc, _, hfail => by
    simp only [List.map_nil, List.append_nil] at hfail ⊢
    simp only [List.nil_append, List.map_cons, List.cons_append, driveOutputs, henc v]
    rw [show (⟨key, some (enc v)⟩ : Record) = mkOut key enc v from rfl, hfail]
  | u :: us, acc, hacc, hfail => by
    simp only [List.map_cons, writesAccepted] at hacc
    cases h0 : w.accept acc (mkOut key enc u) with
    | some e0 => rw [h0] at hacc; simp at hacc
    | none =>
      rw [h0] at hacc
      simp only [List.cons_append, List.map_cons, driveOutputs, henc u]
      rw [show (⟨key, some (enc u)⟩ : Record) = mkOut key enc u from rfl, h0]
      have ih := driveOutputs_emitFail codec w key enc henc v ws rest e us
        (acc ++ [mkOut key enc u]) hacc (by simpa [List.append_assoc] using hfail)
      simpa [List.append_assoc] using ih

/-- Claim C9: when the write of some output record fails, `transform`
fails with that write's error as the record's terminal error; the outputs
written before the failure stand and no later sequence element is
emitted. -/
theorem transform_emitError_stops (codec : Codec) (filter : FilterFn)
    (w : RecordWriter) (r : Record) (enc : Json → Bytes)
    (henc : ∀ v, codec.encode v = Except.ok (enc v))
    (payload : Bytes) (doc : Json) (us : List Json) (v : Json) (ws : List Json)
    (rest : List (Except String Json)) (e : String)
    (hv : r.value = some payload) (hd : codec.decode payload = Except.ok doc)
    (hf : filter (buildCtx r) doc = (us ++ v :: ws).map Except.ok ++ rest)
    (hacc : writesAccepted w [] (us.map (mkOut r.key enc)) = true)
    (hfail : w.accept (us.map (mkOut r.key enc)) (mkOut r.key enc v) = some e) :
    jaq_transform codec filter w r =
      (us.map (mkOut r.key enc), some (TransformError.emitError e)) := by
  simp only [jaq_transform, hv, hd, hf]
  have h := driveOutputs_emitFail codec w r.key enc henc v ws rest e us [] hacc
    (by simpa using hfail)
  simpa using h

/-- Witness for C9: a writer that rejects the second write stops the loop
after one output, with the write's error as the terminal error. -/
theorem transform_emitError_stops_witness :
    jaq_transform serdeCodec
      (fun _ _ => [Except.ok (Json.num 1), Except.ok (Json.num 2), Except.ok (Json.num 3)])
      (failAtWriter 1 "write failed") ⟨some [107], some (strBytes "0")⟩ =
      ([⟨some [107], some (strBytes "1")⟩], some (TransformError.emitError "write failed")) :=
  transform_emitError_stops serdeCodec
    (fun _ _ => [Except.ok (Json.num 1), Except.ok (Json.num 2), Except.ok (Json.num 3)])
    (failAtWriter 1 "write failed") ⟨some [107], some (strBytes "0")⟩ to_vec
    (fun _ => rfl) (strBytes "0") (Json.num 0) [Json.num 1] (Json.num 2) [Json.num 3]
    [] "write failed" rfl rfl rfl rfl rfl

/-- Claim C10: every output record `transform` emits has a present value:
the encoded bytes of the produced document, never an absent value. -/
theorem transform_outputs_value_present (codec : Codec) (filter : FilterFn)
    (w : RecordWriter) (r : Record) :
    ∀ o ∈ (jaq_transform codec filter w r).1, o.value.isSome = true := by
  cases hv : r.value with
  | none => simp [jaq_transform, hv]
  | some payload =>
    cases hd : codec.decode payload with
    | error e => simp [jaq_transform, hv, hd]
    | ok doc =>
      have heq : jaq_transform codec filter w r =
          driveOutputs codec w r.key (filter (buildCtx r) doc) [] := by
        simp [jaq_transform, hv, hd]
      rw [heq]
      exact driveOutputs_value_isSome codec w r.key (filter (buildCtx r) doc) []
        (by simp)

/-- Witness for C10: a filter producing the null document emits a record
whose value is present (the bytes `"null"`). -/
theorem transform_outputs_value_present_witness :
    Option.isSome (Record.mk (some [107]) (some (strBytes "null"))).value = true :=
  transform_outputs_value_present serdeCodec (fun _ _ => [Except.ok Json.null])
    okWriter ⟨some [107], some (strBytes "1")⟩
    ⟨some [107], some (strBytes "null")⟩ (by decide)

/-- Claim C5: startup fails (before any per-record handler is registered)
whenever the filter's parse or compile step reports errors, and on
success the registered handler is built from the single compiled filter
`(compile ast).1`, an immutable value shared by every record
invocation. -/
theorem mainStartup_compiles_once {Ast : Type}
    (parse : String → Option Ast × List String)
    (compile : Ast → FilterFn × List String) (s : String) :
    ((parse s).2 ≠ [] →
      mainStartup (some s) parse compile =
        Except.error ("filter " ++ s ++ " is invalid")) ∧
    (∀ ast, (parse s).1 = some ast → (parse s).2 = [] → (compile ast).2 ≠ [] →
      mainStartup (some s) parse compile =
        Except.error ("filter " ++ s ++ " is invalid")) ∧
    (∀ ast, (parse s).1 = some ast → (parse s).2 = [] → (compile ast).2 = [] →
      mainStartup (some s) parse compile = Except.ok (compile ast).1) := by
  refine ⟨?_, ?_, ?_⟩
  · intro h
    simp [mainStartup, h]
  · intro ast h1 h2 h3
    simp [mainStartup, h1, h2, h3]
  · intro ast h1 h2 h3
    simp [mainStartup, h1, h2, h3]

/-- Witness for C5: a parse error fails startup; a clean parse and compile
succeed with the compiled filter. -/
theorem mainStartup_compiles_once_witness :
    mainStartup (some "][") (fun _ => ((none : Option Unit), ["unexpected token"]))
      (fun _ => ((fun _ v => [Except.ok v]), ([] : List String))) =
      Except.error "filter ][ is invalid" ∧
    mainStartup (some ".") (fun _ => ((some () : Option Unit), ([] : List String)))
      (fun _ => ((fun _ v => [Except.ok v]), ([] : List String))) =
      Except.ok (fun _ v => [Except.ok v]) :=
  ⟨(mainStartup_compiles_once (fun _ => ((none : Option Unit), ["unexpected token"]))
      (fun _ => ((fun _ v => [Except.ok v]), ([] : List String))) "][").1 (by simp),
   (mainStartup_compiles_once (fun _ => ((some () : Option Unit), ([] : List String)))
      (fun _ => ((fun _ v => [Except.ok v]), ([] : List String))) ".").2.2 () rfl rfl rfl⟩
